import Mathlib

/-
Verification development for the "juergen" shared-portfolio application.

The embedding covers the price-resolution and valuation core:
  * `PriceFetcher.fetch_stock_prices`   (src/price_fetcher.py, lines 16-102)
  * `PriceFetcher.get_portfolio_value`  (lines 104-110)
  * `PriceFetcher.get_stock_value`      (lines 112-115)
  * `PriceFetcher.get_price_change_percentage` (lines 117-128)
  * `PriceFetcher.get_daily_change_percentage` (lines 130-138)
  * `PriceFetcher.get_user_daily_change_value` (lines 140-149)
  * `PriceFetcher.get_historical_data`  (lines 151-217)
  * the metric computations of `PortfolioDashboard.show_dashboard` (lines 35-50)
  * the static configuration (src/config.py)

Python floats are modelled by the symbolic type `FVal`: a finite rational,
NaN, or a signed infinity.  The IEEE special-value propagation rules for the
operations the code uses are modelled exactly; finite arithmetic is exact
rational arithmetic (the code never works near the overflow range of a
double, and no claim concerns rounding or overflow).  Streamlit UI calls,
`time.sleep`, and the `language` argument are presentation-only and carry no
data flow into the returned records, so they are omitted.
-/

/-- A Python float value: a finite rational, NaN, or a signed infinity. -/
inductive FVal where
  | fin (q : ℚ)
  | nan
  | inf
  | ninf
deriving DecidableEq

/-- Finiteness of a float value (`math.isfinite`). -/
def FVal.isFinite : FVal → Bool
  | .fin _ => true
  | _ => false

/-- The rational value of a finite float; 0 on NaN and the infinities. -/
def FVal.toRat : FVal → ℚ
  | .fin q => q
  | _ => 0

/-- Float negation. -/
def FVal.neg : FVal → FVal
  | .fin q => .fin (-q)
  | .nan => .nan
  | .inf => .ninf
  | .ninf => .inf

/-- Float addition with IEEE special-value propagation (NaN absorbs;
opposite infinities give NaN). -/
def FVal.add : FVal → FVal → FVal
  | .nan, _ => .nan
  | _, .nan => .nan
  | .fin a, .fin b => .fin (a + b)
  | .inf, .ninf => .nan
  | .ninf, .inf => .nan
  | .inf, _ => .inf
  | _, .inf => .inf
  | .ninf, _ => .ninf
  | _, .ninf => .ninf

/-- Float subtraction, `a - b = a + (-b)`. -/
def FVal.sub (a b : FVal) : FVal := FVal.add a (FVal.neg b)

/-- Float multiplication with IEEE special-value propagation
(`inf * 0 = NaN`, signs of infinities follow the finite factor). -/
def FVal.mul : FVal → FVal → FVal
  | .nan, _ => .nan
  | _, .nan => .nan
  | .fin a, .fin b => .fin (a * b)
  | .fin a, .inf => if a = 0 then .nan else if 0 < a then .inf else .ninf
  | .fin a, .ninf => if a = 0 then .nan else if 0 < a then .ninf else .inf
  | .inf, .fin b => if b = 0 then .nan else if 0 < b then .inf else .ninf
  | .ninf, .fin b => if b = 0 then .nan else if 0 < b then .ninf else .inf
  | .inf, .inf => .inf
  | .inf, .ninf => .ninf
  | .ninf, .inf => .ninf
  | .ninf, .ninf => .inf

/-- Float division.  A finite (or infinite) numerator over a finite zero
raises `ZeroDivisionError` in Python; every division in this code base sits
behind an `== 0` or `> 0` guard on the denominator, so that case is
unreachable and is mapped to NaN here. -/
def FVal.div : FVal → FVal → FVal
  | .nan, _ => .nan
  | _, .nan => .nan
  | .fin a, .fin b => if b = 0 then .nan else .fin (a / b)
  | .fin _, .inf => .fin 0
  | .fin _, .ninf => .fin 0
  | .inf, .fin b => if b = 0 then .nan else if 0 < b then .inf else .ninf
  | .ninf, .fin b => if b = 0 then .nan else if 0 < b then .ninf else .inf
  | .inf, .inf => .nan
  | .inf, .ninf => .nan
  | .ninf, .inf => .nan
  | .ninf, .ninf => .nan

/-- The Python comparison `x > 0` on a float (False on NaN). -/
def FVal.gtZero : FVal → Bool
  | .fin q => decide (0 < q)
  | .inf => true
  | _ => false

/-- The Python comparison `x == 0` on a float (False on NaN and infinities). -/
def FVal.beqZero : FVal → Bool
  | .fin q => decide (q = 0)
  | _ => false

/-- One row of a `yfinance` history DataFrame: the `Close` value and the
`Open` value of one trading session.  When the frame has no `Open` column
(see `Hist.hasOpen`) the `openPrice` component is never read. -/
structure HistRow where
  close : FVal
  openPrice : FVal
deriving DecidableEq

/-- The default row used to totalise positional reads; every read in the
code sits behind an emptiness or length guard, so it is never returned. -/
def HistRow.dflt : HistRow := ⟨FVal.nan, FVal.nan⟩

/-- A `yfinance` history DataFrame: rows in chronological order (so
`iloc[-1]` is the last list entry), plus whether an `Open` column exists. -/
structure Hist where
  rows : List HistRow
  hasOpen : Bool
deriving DecidableEq

/-- `float(hist['Close'].iloc[-1])` — the latest close. -/
def Hist.lastClose (h : Hist) : FVal := (h.rows.getLastD HistRow.dflt).close

/-- `float(hist['Close'].iloc[-2])` — the second-to-latest close. -/
def Hist.secondLastClose (h : Hist) : FVal :=
  (h.rows.reverse.getD 1 HistRow.dflt).close

/-- `float(hist['Open'].iloc[-1])` — the latest session's open. -/
def Hist.lastOpenPrice (h : Hist) : FVal := (h.rows.getLastD HistRow.dflt).openPrice

/-- `float(hist['Close'].iloc[0])` — the earliest close in the window. -/
def Hist.firstClose (h : Hist) : FVal := (h.rows.headD HistRow.dflt).close

/-- Outcome of one `yf.Ticker(symbol)` / `ticker.history(...)` lookup:
either an exception anywhere inside the `try` body (network error, unknown
symbol, malformed response, missing column), or a DataFrame. -/
inductive FetchOutcome where
  | raise
  | ok (hist : Hist)
deriving DecidableEq

/-- Every close and open value in a successful lookup is finite; an
exception outcome is vacuously fine. -/
def FetchOutcome.allFiniteB : FetchOutcome → Bool
  | .raise => true
  | .ok h => h.rows.all (fun r => r.close.isFinite && r.openPrice.isFinite)

/-- A holding record (a Python dict).  The first five fields are the static
configuration keys (src/config.py, `STOCKS`); the remaining fields model the
keys the resolution code may add, `none` meaning the key is absent.
`previous_close` is doubly optional: the outer layer is key presence, the
inner layer is the stored value, which can itself be Python `None`. -/
structure Stock where
  symbol : String
  quantity : ℚ
  price : ℚ
  name : String
  industry : Option String
  current_price : Option FVal
  previous_close : Option (Option FVal)
  price_source : Option String
  previous_price : Option FVal
  historical_change : Option FVal
  period : Option String
deriving DecidableEq

instance : Inhabited Stock :=
  ⟨⟨"", 0, 0, "", none, none, none, none, none, none, none⟩⟩

/-- A configuration entry of `STOCKS`: only the five static keys. -/
def configStock (symbol : String) (quantity price : ℚ) (name : String)
    (industry : Option String) : Stock :=
  ⟨symbol, quantity, price, name, industry, none, none, none, none, none, none⟩

/-- `stock.get('current_price', stock['price'])` — the effective current
price, falling back to the baseline price when the key is absent. -/
def Stock.getCurrentPrice (stock : Stock) : FVal :=
  match stock.current_price with
  | some v => v
  | none => FVal.fin stock.price

/-- `stock.get('previous_close')` — `None` when the key is absent. -/
def Stock.getPreviousClose (stock : Stock) : Option FVal :=
  stock.previous_close.getD none

/-- `STOCKS` from src/config.py, lines 44-61. -/
def STOCKS : List Stock :=
  [ configStock "AGIF" 5.4 365.00 "Index Fund" (some "Index")
  , configStock "BP" 143.0 4.41 "BP" (some "Oil & Gas")
  , configStock "C" 282.0 73.64 "Citigroup" (some "Bank")
  , configStock "1COV.DE" 100.0 60.54 "Covestro" (some "Chemicals")
  , configStock "HEI.DE" 185.0 192.25 "Heidelberg Materials" (some "Materials")
  , configStock "EXV1.DE" 284.0 27.83 "Index Fund" (some "European Banks")
  , configStock "URTH" 493.0 100.48 "Index Fund" (some "Index")
  , configStock "DAX" 60.0 217.75 "Index Fund" (some "DAX")
  , configStock "PLTR" 85.0 113.08 "Palantir" (some "Software")
  , configStock "SHEL" 74.0 30.61 "Shell" (some "Oil & Gas")
  , configStock "WFC" 340.0 70.36 "Wells Fargo" (some "Bank")
  , configStock "3BAL.L" 7.5 29.70 "Index Fund" (some "European Banks")
  , configStock "DBPG.DE" 47.0 212.65 "Index Fund" (some "Index")
  , configStock "GS" 8.0 608.10 "Goldman Sachs" (some "Bank")
  , configStock "LUV" 80.0 28.79 "Southwest (Airline)" (some "Airlines")
  , configStock "UAL" 50.0 68.92 "United (Airline)" (some "Airlines")
  , configStock "CASH" 81358.0 1.00 "Cash" none ]

/-- A user configuration entry (src/config.py, `USERS`).  Every configured
user carries an `initial_investment` key, so `user.get('initial_investment',
0)` reads the field directly. -/
structure UserCfg where
  username : String
  portfolio_percentage : ℚ
  initial_investment : ℚ
deriving DecidableEq

/-- `USERS` from src/config.py, lines 5-42 (passwords are out of scope). -/
def USERS : List UserCfg :=
  [ ⟨"user", 1.0, 231158⟩
  , ⟨"foehr", 0.05954698, 20200⟩
  , ⟨"kremer", 0.60447851, 130000⟩
  , ⟨"annika", 0.003068, 720⟩
  , ⟨"juergen", 0.14746305, 50000⟩
  , ⟨"christian", 0.17582904, 30000⟩ ]

/-- The body of one iteration of the loop in
`PriceFetcher.fetch_stock_prices` (src/price_fetcher.py, lines 36-95),
given the lookup outcome for each symbol.  Returns the record appended to
`updated_stocks` and the symbol appended to `failed_symbols`, if any.
`stock.copy()` followed by key assignments is the record update; `float()`
on a float value is the identity. -/
def resolveOne (o : String → FetchOutcome) (stock : Stock) : Stock × Option String :=
  if stock.symbol = "CASH" then
    (stock, none)
  else
    match o stock.symbol with
    | .ok hist =>
      if !hist.rows.isEmpty then
        let current_price := hist.lastClose
        let previous_close : Option FVal :=
          if 1 < hist.rows.length then some hist.secondLastClose
          else if hist.hasOpen then some hist.lastOpenPrice
          else none
        ({ stock with current_price := some current_price,
                      previous_close := some previous_close,
                      price_source := some "live" }, none)
      else
        ({ stock with current_price := some (FVal.fin stock.price),
                      previous_close := some (some (FVal.fin stock.price)),
                      price_source := some "default" }, some stock.symbol)
    | .raise =>
        ({ stock with current_price := some (FVal.fin stock.price),
                      previous_close := some (some (FVal.fin stock.price)),
                      price_source := some "default" }, some stock.symbol)

/-- `PriceFetcher.fetch_stock_prices` (lines 16-102): the loop over the
input list, accumulating `updated_stocks` and `failed_symbols` in input
order.  The `try`/`except` of the loop body catches every exception, so the
function is total over all outcome assignments. -/
def fetch_stock_prices (o : String → FetchOutcome) : List Stock → List Stock × List String
  | [] => ([], [])
  | stock :: rest =>
    let step := resolveOne o stock
    let r := fetch_stock_prices o rest
    (step.1 :: r.1,
     match step.2 with
     | some sym => sym :: r.2
     | none => r.2)

/-- `PriceFetcher.get_portfolio_value` (lines 104-110): `total_value = 0`,
then `total_value += stock['quantity'] * current_price` over the list. -/
def get_portfolio_value (stocks : List Stock) : FVal :=
  stocks.foldl
    (fun total_value stock =>
      FVal.add total_value (FVal.mul (FVal.fin stock.quantity) stock.getCurrentPrice))
    (FVal.fin 0)

/-- `PriceFetcher.get_stock_value` (lines 112-115). -/
def get_stock_value (stock : Stock) : FVal :=
  FVal.mul (FVal.fin stock.quantity) stock.getCurrentPrice

/-- `PriceFetcher.get_price_change_percentage` (lines 117-128). -/
def get_price_change_percentage (stock : Stock) : FVal :=
  if stock.price_source = some "default" then FVal.fin 0
  else
    let current_price := stock.getCurrentPrice
    let original_price := stock.price
    if original_price = 0 then FVal.fin 0
    else FVal.mul (FVal.div (FVal.sub current_price (FVal.fin original_price))
                            (FVal.fin original_price))
                  (FVal.fin 100)

/-- `PriceFetcher.get_daily_change_percentage` (lines 130-138):
`if previous_close is None or previous_close == 0: return 0.0`. -/
def get_daily_change_percentage (stock : Stock) : FVal :=
  let current_price := stock.getCurrentPrice
  match stock.getPreviousClose with
  | none => FVal.fin 0
  | some previous_close =>
    if previous_close.beqZero then FVal.fin 0
    else FVal.mul (FVal.div (FVal.sub current_price previous_close) previous_close)
                  (FVal.fin 100)

/-- `PriceFetcher.get_user_daily_change_value` (lines 140-149). -/
def get_user_daily_change_value (stock : Stock) (user_percentage : ℚ) : FVal :=
  let current_price := stock.getCurrentPrice
  match stock.getPreviousClose with
  | none => FVal.fin 0
  | some previous_close =>
    FVal.mul (FVal.mul (FVal.sub current_price previous_close)
                       (FVal.fin stock.quantity))
             (FVal.fin user_percentage)

/-- The body of one iteration of the loop in
`PriceFetcher.get_historical_data` (lines 163-215), given the lookup
outcome for each symbol.  The `elif` reading the open price inside the
1-day branch is kept although the enclosing `len(hist) >= 2` guard makes it
unreachable. -/
def historicalResolveOne (o : String → FetchOutcome) (period : String)
    (stock : Stock) : Stock :=
  if stock.symbol = "CASH" then
    { stock with historical_change := some (FVal.fin 0), period := some period }
  else
    match o stock.symbol with
    | .ok hist =>
      if ¬hist.rows.isEmpty ∧ 2 ≤ hist.rows.length then
        let current_price := hist.lastClose
        let previous_price :=
          if period = "1d" then
            if 1 < hist.rows.length then hist.secondLastClose
            else hist.lastOpenPrice
          else hist.firstClose
        let change_percentage :=
          if previous_price.gtZero then
            FVal.mul (FVal.div (FVal.sub current_price previous_price) previous_price)
                     (FVal.fin 100)
          else FVal.fin 0
        { stock with current_price := some current_price,
                     previous_price := some previous_price,
                     historical_change := some change_percentage,
                     period := some period,
                     price_source := some "live" }
      else
        { stock with current_price := some (FVal.fin stock.price),
                     previous_price := some (FVal.fin stock.price),
                     historical_change := some (FVal.fin 0),
                     period := some period,
                     price_source := some "default" }
    | .raise =>
        { stock with current_price := some (FVal.fin stock.price),
                     previous_price := some (FVal.fin stock.price),
                     historical_change := some (FVal.fin 0),
                     period := some period,
                     price_source := some "default" }

/-- `PriceFetcher.get_historical_data` (lines 151-217): the loop appends
one resolved record per input record, in order.  (The `period_map` lookup
only chooses the lookback window passed to the data source; the window is
part of each `FetchOutcome` here.) -/
def get_historical_data (o : String → FetchOutcome) (stocks : List Stock)
    (period : String) : List Stock :=
  stocks.map (historicalResolveOne o period)

/-- The numeric metrics computed by `PortfolioDashboard.show_dashboard`
(src/portfolio_dashboard.py, lines 35-50). -/
structure DashboardMetrics where
  total_portfolio_value : FVal
  user_portfolio_value : FVal
  total_return_amount : FVal
  total_return_percentage : FVal
  total_daily_change : FVal
  daily_percentage : FVal
deriving DecidableEq

/-- The metric computations of `PortfolioDashboard.show_dashboard`
(lines 35-50), detached from the rendering calls around them. -/
def show_dashboard_metrics (user : UserCfg) (stocks_with_prices : List Stock) :
    DashboardMetrics :=
  let total_portfolio_value := get_portfolio_value stocks_with_prices
  let user_portfolio_value :=
    FVal.mul total_portfolio_value (FVal.fin user.portfolio_percentage)
  let initial_investment := user.initial_investment
  let total_return_amount :=
    FVal.sub user_portfolio_value (FVal.fin initial_investment)
  let total_return_percentage :=
    if 0 < initial_investment then
      FVal.mul (FVal.div total_return_amount (FVal.fin initial_investment))
               (FVal.fin 100)
    else FVal.fin 0
  let total_daily_change :=
    (stocks_with_prices.map
      (fun stock => get_user_daily_change_value stock user.portfolio_percentage)).foldl
      FVal.add (FVal.fin 0)
  let daily_percentage :=
    if user_portfolio_value.gtZero then
      FVal.mul (FVal.div total_daily_change user_portfolio_value) (FVal.fin 100)
    else FVal.fin 0
  ⟨total_portfolio_value, user_portfolio_value, total_return_amount,
   total_return_percentage, total_daily_change, daily_percentage⟩

/-
Heap model of the same two loops.

Python dicts are mutable references.  To state that resolution never
mutates its inputs, records live on an explicit heap (address = list
index, allocation = append), and the loop bodies are re-traced
operation by operation: `stock.copy()` allocates a fresh record, and each
`updated_stock['key'] = value` is a write to that fresh address.
-/

/-- A heap of stock records; the address of a record is its index. -/
structure Heap where
  recs : List Stock
deriving DecidableEq

/-- Dereference an address. -/
def Heap.read (h : Heap) (a : Nat) : Stock := h.recs.getD a default

/-- Allocate a fresh record (`dict.copy()` and dict literals allocate). -/
def Heap.alloc (h : Heap) (s : Stock) : Heap × Nat :=
  (⟨h.recs ++ [s]⟩, h.recs.length)

/-- Mutate the record at an address (`d['key'] = value`). -/
def Heap.write (h : Heap) (a : Nat) (s : Stock) : Heap := ⟨h.recs.set a s⟩

/-- Heap-level loop body of `fetch_stock_prices` (lines 36-95): read the
input record, `stock.copy()`, then assign `current_price`,
`previous_close`, `price_source` on the copy.  Returns the new heap, the
address appended to `updated_stocks`, and the symbol appended to
`failed_symbols`, if any. -/
def fetch_step_heap (o : String → FetchOutcome) (h : Heap) (a : Nat) :
    Heap × Nat × Option String :=
  let stock := h.read a
  if stock.symbol = "CASH" then
    let al := h.alloc stock
    (al.1, al.2, none)
  else
    match o stock.symbol with
    | .ok hist =>
      if !hist.rows.isEmpty then
        let previous_close : Option FVal :=
          if 1 < hist.rows.length then some hist.secondLastClose
          else if hist.hasOpen then some hist.lastOpenPrice
          else none
        let al := h.alloc stock
        let h1 := al.1
        let a1 := al.2
        let h2 := h1.write a1 { h1.read a1 with current_price := some hist.lastClose }
        let h3 := h2.write a1 { h2.read a1 with previous_close := some previous_close }
        let h4 := h3.write a1 { h3.read a1 with price_source := some "live" }
        (h4, a1, none)
      else
        let al := h.alloc stock
        let h1 := al.1
        let a1 := al.2
        let h2 := h1.write a1 { h1.read a1 with current_price := some (FVal.fin stock.price) }
        let h3 := h2.write a1 { h2.read a1 with previous_close := some (some (FVal.fin stock.price)) }
        let h4 := h3.write a1 { h3.read a1 with price_source := some "default" }
        (h4, a1, some stock.symbol)
    | .raise =>
        let al := h.alloc stock
        let h1 := al.1
        let a1 := al.2
        let h2 := h1.write a1 { h1.read a1 with current_price := some (FVal.fin stock.price) }
        let h3 := h2.write a1 { h2.read a1 with previous_close := some (some (FVal.fin stock.price)) }
        let h4 := h3.write a1 { h3.read a1 with price_source := some "default" }
        (h4, a1, some stock.symbol)

/-- Heap-level `fetch_stock_prices`: the loop over the addresses of the
input records. -/
def fetch_stock_prices_heap (o : String → FetchOutcome) (h : Heap) :
    List Nat → Heap × List Nat × List String
  | [] => (h, [], [])
  | a :: rest =>
    let step := fetch_step_heap o h a
    let r := fetch_stock_prices_heap o step.1 rest
    (r.1, step.2.1 :: r.2.1,
     match step.2.2 with
     | some sym => sym :: r.2.2
     | none => r.2.2)

/-- Heap-level loop body of `get_historical_data` (lines 163-215). -/
def historical_step_heap (o : String → FetchOutcome) (period : String)
    (h : Heap) (a : Nat) : Heap × Nat :=
  let stock := h.read a
  if stock.symbol = "CASH" then
    let al := h.alloc stock
    let h1 := al.1
    let a1 := al.2
    let h2 := h1.write a1 { h1.read a1 with historical_change := some (FVal.fin 0) }
    let h3 := h2.write a1 { h2.read a1 with period := some period }
    (h3, a1)
  else
    match o stock.symbol with
    | .ok hist =>
      if ¬hist.rows.isEmpty ∧ 2 ≤ hist.rows.length then
        let previous_price :=
          if period = "1d" then
            if 1 < hist.rows.length then hist.secondLastClose
            else hist.lastOpenPrice
          else hist.firstClose
        let change_percentage :=
          if previous_price.gtZero then
            FVal.mul (FVal.div (FVal.sub hist.lastClose previous_price) previous_price)
                     (FVal.fin 100)
          else FVal.fin 0
        let al := h.alloc stock
        let h1 := al.1
        let a1 := al.2
        let h2 := h1.write a1 { h1.read a1 with current_price := some hist.lastClose }
        let h3 := h2.write a1 { h2.read a1 with previous_price := some previous_price }
        let h4 := h3.write a1 { h3.read a1 with historical_change := some change_percentage }
        let h5 := h4.write a1 { h4.read a1 with period := some period }
        let h6 := h5.write a1 { h5.read a1 with price_source := some "live" }
        (h6, a1)
      else
        let al := h.alloc stock
        let h1 := al.1
        let a1 := al.2
        let h2 := h1.write a1 { h1.read a1 with current_price := some (FVal.fin stock.price) }
        let h3 := h2.write a1 { h2.read a1 with previous_price := some (FVal.fin stock.price) }
        let h4 := h3.write a1 { h3.read a1 with historical_change := some (FVal.fin 0) }
        let h5 := h4.write a1 { h4.read a1 with period := some period }
        let h6 := h5.write a1 { h5.read a1 with price_source := some "default" }
        (h6, a1)
    | .raise =>
        let al := h.alloc stock
        let h1 := al.1
        let a1 := al.2
        let h2 := h1.write a1 { h1.read a1 with current_price := some (FVal.fin stock.price) }
        let h3 := h2.write a1 { h2.read a1 with previous_price := some (FVal.fin stock.price) }
        let h4 := h3.write a1 { h3.read a1 with historical_change := some (FVal.fin 0) }
        let h5 := h4.write a1 { h4.read a1 with period := some period }
        let h6 := h5.write a1 { h5.read a1 with price_source := some "default" }
        (h6, a1)

/-- Heap-level `get_historical_data`: the loop over the addresses of the
input records. -/
def get_historical_data_heap (o : String → FetchOutcome) (period : String)
    (h : Heap) : List Nat → Heap × List Nat
  | [] => (h, [])
  | a :: rest =>
    let step := historical_step_heap o period h a
    let r := get_historical_data_heap o period step.1 rest
    (r.1, step.2 :: r.2)

/-
Helper lemmas shared by the claim theorems.
-/

/-- The loop of `fetch_stock_prices` produces one record per input record,
each computed from its own input record alone. -/
lemma fetch_fst_eq_map (o : String → FetchOutcome) (stocks : List Stock) :
    (fetch_stock_prices o stocks).1 = stocks.map (fun s => (resolveOne o s).1) := by
  induction stocks with
  | nil => rfl
  | cons s rest ih => simp [fetch_stock_prices, ih]

/-- The failed-symbols list of `fetch_stock_prices` collects exactly the
per-record failure flags, in input order. -/
lemma fetch_snd_eq_filterMap (o : String → FetchOutcome) (stocks : List Stock) :
    (fetch_stock_prices o stocks).2 = stocks.filterMap (fun s => (resolveOne o s).2) := by
  induction stocks with
  | nil => rfl
  | cons s rest ih =>
    cases hf : (resolveOne o s).2 <;>
      simp [fetch_stock_prices, List.filterMap_cons, hf, ih]

/-- The accumulator loop of `get_portfolio_value`, over records with finite
effective prices, computes the exact rational sum. -/
lemma foldl_value_fin (l : List Stock) (a : ℚ)
    (hfin : ∀ s ∈ l, s.getCurrentPrice.isFinite = true) :
    l.foldl (fun total_value stock =>
        FVal.add total_value (FVal.mul (FVal.fin stock.quantity) stock.getCurrentPrice))
      (FVal.fin a)
    = FVal.fin (a + (l.map (fun s => s.quantity * s.getCurrentPrice.toRat)).sum) := by
  induction l generalizing a with
  | nil => simp
  | cons s rest ih =>
    have hs : s.getCurrentPrice.isFinite = true := hfin s (List.mem_cons_self s rest)
    cases hp : s.getCurrentPrice with
    | fin q =>
      have hrest : ∀ s' ∈ rest, s'.getCurrentPrice.isFinite = true :=
        fun s' hs' => hfin s' (List.mem_cons_of_mem _ hs')
      simp only [List.foldl_cons, hp, List.map_cons, List.sum_cons]
      rw [show FVal.add (FVal.fin a) (FVal.mul (FVal.fin s.quantity) (FVal.fin q))
            = FVal.fin (a + s.quantity * q) from rfl]
      rw [ih (a + s.quantity * q) hrest]
      simp only [hp, FVal.toRat]
      rw [add_assoc]
    | nan => rw [hp] at hs; simp [FVal.isFinite] at hs
    | inf => rw [hp] at hs; simp [FVal.isFinite] at hs
    | ninf => rw [hp] at hs; simp [FVal.isFinite] at hs

/-- Writing at the freshly appended cell replaces only that cell. -/
lemma set_append_length {α : Type} (l : List α) (x y : α) :
    (l ++ [x]).set l.length y = l ++ [y] := by
  simp [List.set_append]

/-- Reading the freshly appended cell gives the appended value. -/
lemma getD_append_length {α : Type} (l : List α) (x d : α) :
    (l ++ [x]).getD l.length d = x := by
  rw [List.getD_append_right l [x] d l.length (le_refl _)]; simp

/-- Reading back a freshly appended record gives that record. -/
lemma Heap.read_mk_append (l : List Stock) (x : Stock) :
    Heap.read ⟨l ++ [x]⟩ l.length = x := by
  simp [Heap.read, getD_append_length]

/-- Writing at a freshly appended cell replaces exactly that record. -/
lemma Heap.write_mk_append (l : List Stock) (x y : Stock) :
    Heap.write ⟨l ++ [x]⟩ l.length y = ⟨l ++ [y]⟩ := by
  simp [Heap.write, set_append_length]

/-- One heap-level `fetch_stock_prices` iteration appends exactly the
record the value-level loop body computes, at a fresh address, and reports
the same failure flag; existing cells are untouched. -/
lemma fetch_step_heap_spec (o : String → FetchOutcome) (h : Heap) (a : Nat) :
    (fetch_step_heap o h a).1.recs = h.recs ++ [(resolveOne o (h.read a)).1]
    ∧ (fetch_step_heap o h a).2.1 = h.recs.length
    ∧ (fetch_step_heap o h a).2.2 = (resolveOne o (h.read a)).2 := by
  unfold fetch_step_heap resolveOne
  by_cases hc : (h.read a).symbol = "CASH"
  · rw [if_pos hc, if_pos hc]
    simp [Heap.alloc]
  · rw [if_neg hc, if_neg hc]
    cases ho : o (h.read a).symbol with
    | raise =>
      simp [Heap.alloc, Heap.read_mk_append, Heap.write_mk_append]
    | ok hist =>
      dsimp only
      by_cases he : hist.rows.isEmpty <;>
        simp [he, Heap.alloc, Heap.read_mk_append, Heap.write_mk_append]

/-- One heap-level `get_historical_data` iteration appends exactly the
record the value-level loop body computes, at a fresh address. -/
lemma historical_step_heap_spec (o : String → FetchOutcome) (period : String)
    (h : Heap) (a : Nat) :
    (historical_step_heap o period h a).1.recs
      = h.recs ++ [historicalResolveOne o period (h.read a)]
    ∧ (historical_step_heap o period h a).2 = h.recs.length := by
  unfold historical_step_heap historicalResolveOne
  by_cases hc : (h.read a).symbol = "CASH"
  · rw [if_pos hc, if_pos hc]
    simp [Heap.alloc, Heap.read_mk_append, Heap.write_mk_append]
  · rw [if_neg hc, if_neg hc]
    cases ho : o (h.read a).symbol with
    | raise =>
      simp [Heap.alloc, Heap.read_mk_append, Heap.write_mk_append]
    | ok hist =>
      dsimp only
      by_cases he : ¬hist.rows.isEmpty ∧ 2 ≤ hist.rows.length
      · rw [if_pos he, if_pos he]
        simp [Heap.alloc, Heap.read_mk_append, Heap.write_mk_append]
      · rw [if_neg he, if_neg he]
        simp [Heap.alloc, Heap.read_mk_append, Heap.write_mk_append]

/-- The heap-level fetch loop only appends records: the initial heap is a
prefix of the final heap, and every returned address is fresh. -/
lemma fetch_stock_prices_heap_extends (o : String → FetchOutcome) (as : List Nat) :
    ∀ h : Heap, ∃ extra,
      (fetch_stock_prices_heap o h as).1.recs = h.recs ++ extra
      ∧ ∀ a' ∈ (fetch_stock_prices_heap o h as).2.1, h.recs.length ≤ a' := by
  induction as with
  | nil => intro h; exact ⟨[], by simp [fetch_stock_prices_heap]⟩
  | cons a rest ih =>
    intro h
    obtain ⟨extra, hrec, haddr⟩ := ih (fetch_step_heap o h a).1
    obtain ⟨hstep, hlen, _⟩ := fetch_step_heap_spec o h a
    refine ⟨(resolveOne o (h.read a)).1 :: extra, ?_, ?_⟩
    · simp only [fetch_stock_prices_heap]
      rw [hrec, hstep]
      simp
    · intro a' ha'
      simp only [fetch_stock_prices_heap, List.mem_cons] at ha'
      rcases ha' with rfl | ha'
      · rw [hlen]
      · have := haddr a' ha'
        rw [hstep] at this
        simp at this
        omega

/-- The heap-level historical loop only appends records: the initial heap
is a prefix of the final heap, and every returned address is fresh. -/
lemma get_historical_data_heap_extends (o : String → FetchOutcome) (period : String)
    (as : List Nat) :
    ∀ h : Heap, ∃ extra,
      (get_historical_data_heap o period h as).1.recs = h.recs ++ extra
      ∧ ∀ a' ∈ (get_historical_data_heap o period h as).2, h.recs.length ≤ a' := by
  induction as with
  | nil => intro h; exact ⟨[], by simp [get_historical_data_heap]⟩
  | cons a rest ih =>
    intro h
    obtain ⟨extra, hrec, haddr⟩ := ih (historical_step_heap o period h a).1
    obtain ⟨hstep, hlen⟩ := historical_step_heap_spec o period h a
    refine ⟨historicalResolveOne o period (h.read a) :: extra, ?_, ?_⟩
    · simp only [get_historical_data_heap]
      rw [hrec, hstep]
      simp
    · intro a' ha'
      simp only [get_historical_data_heap, List.mem_cons] at ha'
      rcases ha' with rfl | ha'
      · rw [hlen]
      · have := haddr a' ha'
        rw [hstep] at this
        simp at this
        omega

/-- The last-with-default read of a non-empty list is a member. -/
lemma getLastD_mem {α : Type} (l : List α) (d : α) (h : l ≠ []) :
    l.getLastD d ∈ l := by
  rw [List.getLastD_eq_getLast?]
  cases l with
  | nil => exact absurd rfl h
  | cons a as =>
    rw [List.getLast?_eq_getLast (a :: as) (by simp)]
    exact List.getLast_mem _

/-- `iloc[-1]` on a frame ending in `[a, b]` reads `b`. -/
lemma getLastD_append_pair {α : Type} (pre : List α) (a b d : α) :
    (pre ++ [a, b]).getLastD d = b := by
  rw [show pre ++ [a, b] = (pre ++ [a]) ++ [b] by simp, List.getLastD_eq_getLast?]
  simp

/-- `iloc[-2]` on a frame ending in `[a, b]` reads `a`. -/
lemma reverse_getD_one_append_pair {α : Type} (pre : List α) (a b d : α) :
    ((pre ++ [a, b]).reverse).getD 1 d = a := by
  rw [List.reverse_append]
  simp [List.getD]

/-- The failure flag of one `fetch_stock_prices` iteration carries the
record's own symbol, and only for non-cash records. -/
lemma resolveOne_flag_eq (o : String → FetchOutcome) (s : Stock) (sym : String) :
    (resolveOne o s).2 = some sym → sym = s.symbol ∧ s.symbol ≠ "CASH" := by
  unfold resolveOne
  by_cases hc : s.symbol = "CASH"
  · simp [hc]
  · cases ho : o s.symbol with
    | raise => simp [hc, ho]; intro h; simp [h]
    | ok hist =>
      by_cases he : hist.rows.isEmpty <;> simp [hc, ho, he] <;> intro h <;> simp [h]

/-
Concrete fixtures used by witnesses and counterexamples.
-/

/-- A sample non-cash holding (the holding of the spec's §8 scenarios). -/
def aaplStock : Stock := configStock "AAPL" 10 100 "Apple" (some "Tech")

/-- The cash holding of the shipped configuration (81358.0 and 1.00 written
as the equal integer literals). -/
def cashStock : Stock := configStock "CASH" 81358 1 "Cash" none

/-- A holding with a null industry but a non-`"CASH"` symbol. -/
def xStock : Stock := configStock "X" 1 5 "X Corp" none

/-- An outcome assignment on which every lookup raises. -/
def oracleRaise : String → FetchOutcome := fun _ => FetchOutcome.raise

/-- An outcome assignment returning an empty series for every symbol. -/
def oracleEmpty : String → FetchOutcome := fun _ => FetchOutcome.ok ⟨[], true⟩

/-- The two-session frame of the spec's §8 scenario: previous close 105,
latest close 110. -/
def histTwoDays : Hist :=
  ⟨[⟨FVal.fin 105, FVal.fin 104⟩, ⟨FVal.fin 110, FVal.fin 106⟩], true⟩

/-- An outcome assignment returning `histTwoDays` for every symbol. -/
def oracleTwoDays : String → FetchOutcome := fun _ => FetchOutcome.ok histTwoDays

/-- A successful lookup whose single close is NaN. -/
def oracleNanClose : String → FetchOutcome :=
  fun _ => FetchOutcome.ok ⟨[⟨FVal.nan, FVal.nan⟩], true⟩

/-- A successful two-session lookup whose previous close is NaN. -/
def oracleNanPrev : String → FetchOutcome :=
  fun _ => FetchOutcome.ok ⟨[⟨FVal.nan, FVal.fin 100⟩, ⟨FVal.fin 110, FVal.fin 100⟩], true⟩

/-- A one-year window with earliest close -50 and latest close 75. -/
def oracleNegRef : String → FetchOutcome :=
  fun _ => FetchOutcome.ok ⟨[⟨FVal.fin (-50), FVal.fin 1⟩, ⟨FVal.fin 75, FVal.fin 1⟩], true⟩

/-- A one-year window with earliest close 50 and latest close 75
(the spec's §8 historical scenario). -/
def oracle1y : String → FetchOutcome :=
  fun _ => FetchOutcome.ok ⟨[⟨FVal.fin 50, FVal.fin 49⟩, ⟨FVal.fin 75, FVal.fin 74⟩], true⟩

/-- A successful lookup with exactly one data point. -/
def oracleOnePoint : String → FetchOutcome :=
  fun _ => FetchOutcome.ok ⟨[⟨FVal.fin 75, FVal.fin 74⟩], true⟩

/-
Claim theorems.
-/

/-- C2: for every input list and every combination of per-symbol outcomes
(exceptions included), `fetch_stock_prices` is a total function — the
`try`/`except` surrounds the whole loop body, so no outcome escapes — that
returns exactly one resolved record per input record, each computed from
its own record and outcome alone (so one symbol's failure cannot abort or
alter another's resolution), and failures surface only as the returned
failed-symbols list. -/
theorem fetch_total_one_per_holding_independent (o : String → FetchOutcome)
    (stocks : List Stock) :
    (fetch_stock_prices o stocks).1.length = stocks.length
    ∧ (fetch_stock_prices o stocks).1 = stocks.map (fun s => (resolveOne o s).1)
    ∧ (fetch_stock_prices o stocks).2
        = stocks.filterMap (fun s => (resolveOne o s).2) := by
  refine ⟨?_, fetch_fst_eq_map o stocks, fetch_snd_eq_filterMap o stocks⟩
  rw [fetch_fst_eq_map]
  simp

/-- C3: a non-cash holding whose lookup raises or returns an empty frame
resolves to its baseline price for both `current_price` and
`previous_close`, is marked `price_source = default`, and its symbol joins
the failed-symbols list. -/
theorem fetch_default_fallback_on_failure (o : String → FetchOutcome) (stock : Stock)
    (hsym : stock.symbol ≠ "CASH")
    (hfail : o stock.symbol = FetchOutcome.raise
             ∨ ∃ b, o stock.symbol = FetchOutcome.ok ⟨[], b⟩) :
    (resolveOne o stock).1.current_price = some (FVal.fin stock.price)
    ∧ (resolveOne o stock).1.getCurrentPrice = FVal.fin stock.price
    ∧ (resolveOne o stock).1.getPreviousClose = some (FVal.fin stock.price)
    ∧ (resolveOne o stock).1.price_source = some "default"
    ∧ (resolveOne o stock).2 = some stock.symbol
    ∧ ∀ stocks : List Stock, stock ∈ stocks →
        stock.symbol ∈ (fetch_stock_prices o stocks).2 := by
  have hres : resolveOne o stock
      = ({ stock with current_price := some (FVal.fin stock.price),
                      previous_close := some (some (FVal.fin stock.price)),
                      price_source := some "default" }, some stock.symbol) := by
    rcases hfail with hr | ⟨b, hb⟩
    · simp [resolveOne, hsym, hr]
    · simp [resolveOne, hsym, hb]
  refine ⟨by rw [hres], by rw [hres]; rfl, by rw [hres]; rfl, by rw [hres],
          by rw [hres], ?_⟩
  intro stocks hmem
  rw [fetch_snd_eq_filterMap]
  exact List.mem_filterMap.mpr ⟨stock, hmem, by rw [hres]⟩

/-- Witness for C3 at a concrete failing lookup. -/
theorem fetch_default_fallback_witness :
    (resolveOne oracleRaise aaplStock).1.price_source = some "default"
    ∧ (resolveOne oracleRaise aaplStock).1.getCurrentPrice = FVal.fin 100
    ∧ "AAPL" ∈ (fetch_stock_prices oracleRaise [aaplStock, cashStock]).2 := by
  have h := fetch_default_fallback_on_failure oracleRaise aaplStock
    (by decide) (Or.inl rfl)
  exact ⟨h.2.2.2.1, h.2.1, h.2.2.2.2.2 [aaplStock, cashStock] (by decide)⟩

/-- C4: a non-cash holding whose lookup succeeds with at least one data
point resolves live: `current_price` is the latest close, `previous_close`
is the second-to-latest close when two or more points exist, else the
latest session's open when the frame has an `Open` column, else null, and
`price_source = live`; the symbol is not reported failed. -/
theorem fetch_live_resolution (o : String → FetchOutcome) (stock : Stock) (hist : Hist)
    (hsym : stock.symbol ≠ "CASH") (ho : o stock.symbol = FetchOutcome.ok hist) :
    (∀ pre a b, hist.rows = pre ++ [a, b] →
        (resolveOne o stock).1.current_price = some b.close
        ∧ (resolveOne o stock).1.getPreviousClose = some a.close
        ∧ (resolveOne o stock).1.price_source = some "live"
        ∧ (resolveOne o stock).2 = none)
    ∧ (∀ a, hist.rows = [a] →
        (resolveOne o stock).1.current_price = some a.close
        ∧ (hist.hasOpen = true →
            (resolveOne o stock).1.getPreviousClose = some a.openPrice)
        ∧ (hist.hasOpen = false →
            (resolveOne o stock).1.getPreviousClose = none)
        ∧ (resolveOne o stock).1.price_source = some "live"
        ∧ (resolveOne o stock).2 = none) := by
  constructor
  · intro pre a b hrows
    have hne : (!hist.rows.isEmpty) = true := by rw [hrows]; simp
    have hlen : 1 < hist.rows.length := by rw [hrows]; simp
    simp only [resolveOne, if_neg hsym, ho]
    rw [if_pos hne, if_pos hlen]
    refine ⟨?_, ?_, rfl, rfl⟩
    · simp [Hist.lastClose, hrows, getLastD_append_pair]
    · simp [Stock.getPreviousClose, Hist.secondLastClose, hrows,
            reverse_getD_one_append_pair]
  · intro a hrows
    have hne : (!hist.rows.isEmpty) = true := by rw [hrows]; simp
    have hlen : ¬1 < hist.rows.length := by rw [hrows]; simp
    simp only [resolveOne, if_neg hsym, ho]
    rw [if_pos hne, if_neg hlen]
    refine ⟨?_, ?_, ?_, rfl, rfl⟩
    · simp [Hist.lastClose, hrows]
    · intro hop
      rw [if_pos hop]
      simp [Stock.getPreviousClose, Hist.lastOpenPrice, hrows]
    · intro hop
      rw [if_neg (by simp [hop])]
      simp [Stock.getPreviousClose]

/-- Witness for C4 at the spec's two-session scenario (closes 105 then
110). -/
theorem fetch_live_resolution_witness :
    (resolveOne oracleTwoDays aaplStock).1.current_price = some (FVal.fin 110)
    ∧ (resolveOne oracleTwoDays aaplStock).1.getPreviousClose = some (FVal.fin 105)
    ∧ (resolveOne oracleTwoDays aaplStock).1.price_source = some "live" := by
  have h := (fetch_live_resolution oracleTwoDays aaplStock histTwoDays
    (by decide) rfl).1 [] ⟨FVal.fin 105, FVal.fin 104⟩ ⟨FVal.fin 110, FVal.fin 106⟩ rfl
  exact ⟨h.1, h.2.1, h.2.2.1⟩

/-- C1 is refuted as stated: a successful lookup whose latest close is NaN
propagates NaN into `current_price`, which is then defined but not
finite. -/
theorem fetch_nan_close_not_finite :
    ((fetch_stock_prices oracleNanClose [aaplStock]).1.headD default).getCurrentPrice
      = FVal.nan
    ∧ FVal.nan.isFinite = false := by decide

/-- C1 (amended): after resolution every record's effective current price
(the `current_price` read with baseline fallback — which also covers the
cash record, whose bypass copies the record and leaves the key unset) is
defined and finite, provided every value a successful lookup returns is
finite; lookups that raise, return an empty frame, or return negative or
zero finite prices are all covered.  A non-finite live close, however,
propagates (see `fetch_nan_close_not_finite`). -/
theorem fetch_current_price_defined_finite (o : String → FetchOutcome)
    (stocks : List Stock) (s' : Stock)
    (hmem : s' ∈ (fetch_stock_prices o stocks).1)
    (hfin : ∀ s ∈ stocks, (o s.symbol).allFiniteB = true)
    (hraw : ∀ s ∈ stocks, s.current_price = none) :
    s'.getCurrentPrice.isFinite = true := by
  rw [fetch_fst_eq_map] at hmem
  obtain ⟨s, hs, rfl⟩ := List.mem_map.mp hmem
  have hb := hraw s hs
  have hf := hfin s hs
  unfold resolveOne
  by_cases hc : s.symbol = "CASH"
  · rw [if_pos hc]
    simp [Stock.getCurrentPrice, hb, FVal.isFinite]
  · rw [if_neg hc]
    cases ho : o s.symbol with
    | raise => simp [Stock.getCurrentPrice, FVal.isFinite]
    | ok hist =>
      dsimp only
      by_cases he : (!hist.rows.isEmpty) = true
      · rw [if_pos he]
        have hne : hist.rows ≠ [] := by
          intro hnil; rw [hnil] at he; simp at he
        have hmem2 : hist.rows.getLastD HistRow.dflt ∈ hist.rows :=
          getLastD_mem _ _ hne
        rw [ho] at hf
        simp only [FetchOutcome.allFiniteB, List.all_eq_true, Bool.and_eq_true] at hf
        have hcl := (hf _ hmem2).1
        rw [List.getLastD_eq_getLast?] at hcl
        simp [Stock.getCurrentPrice, Hist.lastClose, List.getLastD_eq_getLast?, hcl]
      · rw [if_neg he]
        simp [Stock.getCurrentPrice, FVal.isFinite]

/-- Witness for C1 (amended) at a concrete finite two-session lookup. -/
theorem fetch_current_price_finite_witness :
    ((fetch_stock_prices oracleTwoDays [aaplStock, cashStock]).1.headD
        default).getCurrentPrice.isFinite = true :=
  fetch_current_price_defined_finite oracleTwoDays [aaplStock, cashStock]
    ((fetch_stock_prices oracleTwoDays [aaplStock, cashStock]).1.headD default)
    (by decide) (by decide) (by decide)

/-- C5: totalValue is the exact sum of quantity × effective current price
over all records (the cash record included, via the baseline fallback of
the price read), and userValue is exactly totalValue ×
portfolio_percentage for any percentage in [0, 1]. -/
theorem portfolio_value_sum_and_user_value (stocks : List Stock) (user : UserCfg)
    (hfin : ∀ s ∈ stocks, s.getCurrentPrice.isFinite = true)
    (hpct : 0 ≤ user.portfolio_percentage ∧ user.portfolio_percentage ≤ 1) :
    get_portfolio_value stocks
      = FVal.fin ((stocks.map (fun s => s.quantity * s.getCurrentPrice.toRat)).sum)
    ∧ (show_dashboard_metrics user stocks).user_portfolio_value
      = FVal.mul (get_portfolio_value stocks) (FVal.fin user.portfolio_percentage)
    ∧ (show_dashboard_metrics user stocks).user_portfolio_value
      = FVal.fin ((stocks.map (fun s => s.quantity * s.getCurrentPrice.toRat)).sum
          * user.portfolio_percentage) := by
  have htot : get_portfolio_value stocks
      = FVal.fin ((stocks.map (fun s => s.quantity * s.getCurrentPrice.toRat)).sum) := by
    have h := foldl_value_fin stocks 0 hfin
    unfold get_portfolio_value
    rw [h, zero_add]
  refine ⟨htot, rfl, ?_⟩
  show FVal.mul (get_portfolio_value stocks) (FVal.fin user.portfolio_percentage)
      = FVal.fin ((stocks.map (fun s => s.quantity * s.getCurrentPrice.toRat)).sum
          * user.portfolio_percentage)
  rw [htot]
  rfl

/-- Witness for C5: resolved AAPL at 110 plus cash 81358 gives total 82458,
and a 100% user sees exactly that total. -/
theorem portfolio_value_sum_witness :
    get_portfolio_value (fetch_stock_prices oracleTwoDays [aaplStock, cashStock]).1
      = FVal.fin 82458
    ∧ (show_dashboard_metrics ⟨"user", 1, 231158⟩
        (fetch_stock_prices oracleTwoDays [aaplStock, cashStock]).1).user_portfolio_value
      = FVal.fin 82458 := by
  have h := portfolio_value_sum_and_user_value
    (fetch_stock_prices oracleTwoDays [aaplStock, cashStock]).1
    ⟨"user", 1, 231158⟩ (by decide) (by decide)
  have hsum : ((fetch_stock_prices oracleTwoDays [aaplStock, cashStock]).1.map
      (fun s => s.quantity * s.getCurrentPrice.toRat)).sum = 82458 := by
    show (10 : ℚ) * 110 + ((81358 : ℚ) * 1 + 0) = 82458
    norm_num
  refine ⟨?_, ?_⟩
  · rw [h.1, hsum]
  · rw [h.2.2, hsum]
    norm_num

/-- C9 is refuted as stated: a holding with a null industry but a symbol
other than "CASH" is not bypassed — on a failing lookup it is marked
`price_source = default` and its symbol joins the failed list. -/
theorem null_industry_not_bypassed :
    xStock.industry = none
    ∧ (resolveOne oracleRaise xStock).1.price_source = some "default"
    ∧ "X" ∈ (fetch_stock_prices oracleRaise [xStock]).2 := by decide

/-- C9 (amended): the bypass is keyed on the symbol "CASH", not on a null
industry: a "CASH" record is returned as an unmodified copy — so its
`current_price` key stays unset and price reads fall back to the baseline,
and a `price_source = default` mark can only pre-exist, never be added —
and no "CASH" symbol ever appears in a failed list.  In the shipped
configuration the only null-industry holding is indeed "CASH", so the two
keyings coincide on configured data. -/
theorem cash_symbol_bypass (o : String → FetchOutcome) (stock : Stock)
    (stocks : List Stock) (hsym : stock.symbol = "CASH") :
    (resolveOne o stock).1 = stock
    ∧ (resolveOne o stock).2 = none
    ∧ (stock.current_price = none →
        (resolveOne o stock).1.getCurrentPrice = FVal.fin stock.price)
    ∧ (stock.price_source = none →
        (resolveOne o stock).1.price_source ≠ some "default")
    ∧ "CASH" ∉ (fetch_stock_prices o stocks).2
    ∧ (∀ s ∈ STOCKS, s.industry = none → s.symbol = "CASH") := by
  have hres : resolveOne o stock = (stock, none) := by simp [resolveOne, hsym]
  refine ⟨by rw [hres], by rw [hres], ?_, ?_, ?_, by decide⟩
  · intro hcp; rw [hres]; simp [Stock.getCurrentPrice, hcp]
  · intro hps; rw [hres]; simp [hps]
  · rw [fetch_snd_eq_filterMap]
    intro hmem
    obtain ⟨s, hs, hflag⟩ := List.mem_filterMap.mp hmem
    obtain ⟨heq, hne⟩ := resolveOne_flag_eq o s "CASH" hflag
    exact hne heq.symm

/-- Witness for C9 (amended) at the configured cash holding. -/
theorem cash_symbol_bypass_witness :
    (resolveOne oracleRaise cashStock).1 = cashStock
    ∧ (resolveOne oracleRaise cashStock).1.getCurrentPrice = FVal.fin 1
    ∧ "CASH" ∉ (fetch_stock_prices oracleRaise [aaplStock, cashStock]).2 := by
  have h := cash_symbol_bypass oracleRaise cashStock [aaplStock, cashStock] rfl
  exact ⟨h.1, by rw [h.2.2.1 rfl]; decide, h.2.2.2.2.1⟩

/-- The `total_return_percentage` metric, written out
(src/portfolio_dashboard.py, line 41). -/
lemma show_dashboard_metrics_total_return (user : UserCfg) (stocks : List Stock) :
    (show_dashboard_metrics user stocks).total_return_percentage
    = if 0 < user.initial_investment then
        FVal.mul (FVal.div (FVal.sub (FVal.mul (get_portfolio_value stocks)
          (FVal.fin user.portfolio_percentage)) (FVal.fin user.initial_investment))
          (FVal.fin user.initial_investment)) (FVal.fin 100)
      else FVal.fin 0 := rfl

/-- The `user_portfolio_value` metric, written out
(src/portfolio_dashboard.py, line 36). -/
lemma show_dashboard_metrics_user_value (user : UserCfg) (stocks : List Stock) :
    (show_dashboard_metrics user stocks).user_portfolio_value
    = FVal.mul (get_portfolio_value stocks) (FVal.fin user.portfolio_percentage) := rfl

/-- The `daily_percentage` metric, written out
(src/portfolio_dashboard.py, line 50). -/
lemma show_dashboard_metrics_daily (user : UserCfg) (stocks : List Stock) :
    (show_dashboard_metrics user stocks).daily_percentage
    = if (FVal.mul (get_portfolio_value stocks)
          (FVal.fin user.portfolio_percentage)).gtZero then
        FVal.mul (FVal.div
          ((stocks.map (fun stock =>
              get_user_daily_change_value stock user.portfolio_percentage)).foldl
            FVal.add (FVal.fin 0))
          (FVal.mul (get_portfolio_value stocks)
            (FVal.fin user.portfolio_percentage))) (FVal.fin 100)
      else FVal.fin 0 := rfl

/-- The `total_daily_change` metric, written out
(src/portfolio_dashboard.py, lines 44-47). -/
lemma show_dashboard_metrics_total_daily (user : UserCfg) (stocks : List Stock) :
    (show_dashboard_metrics user stocks).total_daily_change
    = (stocks.map (fun stock =>
        get_user_daily_change_value stock user.portfolio_percentage)).foldl
        FVal.add (FVal.fin 0) := rfl

/-- C6 is refuted as stated: a NaN `previous_close` (from a live lookup
whose earlier close is NaN) passes the `== 0` guard, and the guarded daily
change division returns NaN — a non-finite valuation output. -/
theorem daily_change_nan_counterexample :
    ((fetch_stock_prices oracleNanPrev [aaplStock]).1.headD default).getPreviousClose
      = some FVal.nan
    ∧ get_daily_change_percentage
        ((fetch_stock_prices oracleNanPrev [aaplStock]).1.headD default) = FVal.nan
    ∧ FVal.nan.isFinite = false
    ∧ FVal.nan ≠ FVal.fin 0 := by decide

/-- C6 (amended): every guard returns exactly 0 when its checked condition
holds — zero or negative initial investment, zero or negative finite user
value, null or zero previous close, zero baseline price — and on finite
operands none of the guarded divisions divides by zero or produces a
non-finite result: the daily change percentage, the total return
percentage, the daily percentage, and the price change percentage are all
finite when their operands are.  A NaN operand, however, passes the
`== 0` and `> 0` float guards and propagates into the output, so
finiteness holds only for finite inputs
(see `daily_change_nan_counterexample`). -/
theorem guarded_divisions_zero_and_finite (user : UserCfg) (stocks : List Stock)
    (s : Stock) :
    (user.initial_investment ≤ 0 →
        (show_dashboard_metrics user stocks).total_return_percentage = FVal.fin 0)
    ∧ (∀ v : ℚ, (show_dashboard_metrics user stocks).user_portfolio_value = FVal.fin v →
        v ≤ 0 → (show_dashboard_metrics user stocks).daily_percentage = FVal.fin 0)
    ∧ (s.getPreviousClose = none → get_daily_change_percentage s = FVal.fin 0)
    ∧ (s.getPreviousClose = some (FVal.fin 0) → get_daily_change_percentage s = FVal.fin 0)
    ∧ (s.price = 0 → get_price_change_percentage s = FVal.fin 0)
    ∧ (s.getCurrentPrice.isFinite = true →
        (∀ pc, s.getPreviousClose = some pc → pc.isFinite = true) →
        (get_daily_change_percentage s).isFinite = true)
    ∧ (∀ v : ℚ, (show_dashboard_metrics user stocks).user_portfolio_value = FVal.fin v →
        (show_dashboard_metrics user stocks).total_return_percentage.isFinite = true)
    ∧ (∀ v w : ℚ, (show_dashboard_metrics user stocks).user_portfolio_value = FVal.fin v →
        (show_dashboard_metrics user stocks).total_daily_change = FVal.fin w →
        (show_dashboard_metrics user stocks).daily_percentage.isFinite = true)
    ∧ (s.getCurrentPrice.isFinite = true →
        (get_price_change_percentage s).isFinite = true) := by
  refine ⟨?_, ?_, ?_, ?_, ?_, ?_, ?_, ?_, ?_⟩
  · intro hinit
    rw [show_dashboard_metrics_total_return, if_neg (not_lt.mpr hinit)]
  · intro v hv hvle
    rw [show_dashboard_metrics_user_value] at hv
    rw [show_dashboard_metrics_daily, hv]
    have hng : ¬0 < v := not_lt.mpr hvle
    simp [FVal.gtZero, hng]
  · intro hpc
    simp [get_daily_change_percentage, hpc]
  · intro hpc
    simp [get_daily_change_percentage, hpc, FVal.beqZero]
  · intro hp
    by_cases hs : s.price_source = some "default"
    · simp [get_price_change_percentage, hs]
    · simp [get_price_change_percentage, hs, hp]
  · intro hcur hprev
    cases hpc : s.getPreviousClose with
    | none => simp [get_daily_change_percentage, hpc, FVal.isFinite]
    | some pc =>
      have hpcf := hprev pc hpc
      cases pc with
      | fin r =>
        by_cases hr : r = 0
        · simp [get_daily_change_percentage, hpc, FVal.beqZero, hr, FVal.isFinite]
        · cases hcp : s.getCurrentPrice with
          | fin c =>
            simp only [get_daily_change_percentage, hpc, hcp]
            simp [FVal.beqZero, hr, FVal.sub, FVal.neg, FVal.add, FVal.div,
                  FVal.mul, FVal.isFinite]
          | nan => rw [hcp] at hcur; simp [FVal.isFinite] at hcur
          | inf => rw [hcp] at hcur; simp [FVal.isFinite] at hcur
          | ninf => rw [hcp] at hcur; simp [FVal.isFinite] at hcur
      | nan => simp [FVal.isFinite] at hpcf
      | inf => simp [FVal.isFinite] at hpcf
      | ninf => simp [FVal.isFinite] at hpcf
  · intro v hv
    rw [show_dashboard_metrics_user_value] at hv
    rw [show_dashboard_metrics_total_return]
    by_cases hi : 0 < user.initial_investment
    · rw [if_pos hi, hv]
      have hne : user.initial_investment ≠ 0 := ne_of_gt hi
      simp [FVal.sub, FVal.neg, FVal.add, FVal.div, FVal.mul, hne, FVal.isFinite]
    · rw [if_neg hi]
      simp [FVal.isFinite]
  · intro v w hv hw
    rw [show_dashboard_metrics_user_value] at hv
    rw [show_dashboard_metrics_total_daily] at hw
    rw [show_dashboard_metrics_daily, hv, hw]
    by_cases h0 : 0 < v
    · have hg : FVal.gtZero (FVal.fin v) = true := by simp [FVal.gtZero, h0]
      rw [if_pos hg]
      have hne : v ≠ 0 := ne_of_gt h0
      simp [FVal.div, FVal.mul, hne, FVal.isFinite]
    · have hg : FVal.gtZero (FVal.fin v) = false := by simp [FVal.gtZero, h0]
      rw [if_neg (by simp [hg])]
      simp [FVal.isFinite]
  · intro hfin
    by_cases hs : s.price_source = some "default"
    · simp [get_price_change_percentage, hs, FVal.isFinite]
    · by_cases hp : s.price = 0
      · simp [get_price_change_percentage, hs, hp, FVal.isFinite]
      · cases hcp : s.getCurrentPrice with
        | fin c =>
          simp [get_price_change_percentage, hs, hp, hcp, FVal.sub, FVal.neg,
                FVal.add, FVal.div, FVal.mul, FVal.isFinite]
        | nan => rw [hcp] at hfin; simp [FVal.isFinite] at hfin
        | inf => rw [hcp] at hfin; simp [FVal.isFinite] at hfin
        | ninf => rw [hcp] at hfin; simp [FVal.isFinite] at hfin

/-- A resolved record whose stored previous close is exactly 0. -/
def prevZeroStock : Stock :=
  { aaplStock with current_price := some (FVal.fin 110),
                   previous_close := some (some (FVal.fin 0)),
                   price_source := some "live" }

/-- A configured holding with a zero baseline price. -/
def zeroPriceStock : Stock := configStock "Z" 1 0 "Zero" (some "T")

/-- Witness for C6 (amended) at concrete guarded inputs. -/
theorem guarded_divisions_witness :
    (show_dashboard_metrics ⟨"u", 1, 0⟩ []).total_return_percentage = FVal.fin 0
    ∧ (show_dashboard_metrics ⟨"u", 1, 0⟩ []).daily_percentage = FVal.fin 0
    ∧ get_daily_change_percentage prevZeroStock = FVal.fin 0
    ∧ get_price_change_percentage zeroPriceStock = FVal.fin 0
    ∧ (get_daily_change_percentage (resolveOne oracleTwoDays aaplStock).1).isFinite
        = true
    ∧ (show_dashboard_metrics ⟨"u", 1, 0⟩ []).total_return_percentage.isFinite = true
    ∧ (show_dashboard_metrics ⟨"u", 1, 0⟩ []).daily_percentage.isFinite = true
    ∧ (get_price_change_percentage (resolveOne oracleTwoDays aaplStock).1).isFinite
        = true := by
  have h1 := guarded_divisions_zero_and_finite ⟨"u", 1, 0⟩ [] prevZeroStock
  have h2 := guarded_divisions_zero_and_finite ⟨"u", 1, 0⟩ [] zeroPriceStock
  have h3 := guarded_divisions_zero_and_finite ⟨"u", 1, 0⟩ []
    (resolveOne oracleTwoDays aaplStock).1
  refine ⟨h1.1 (by decide), h1.2.1 (0 * 1) rfl (by norm_num),
          h1.2.2.2.1 (by decide), h2.2.2.2.2.1 (by decide),
          h3.2.2.2.2.2.1 (by decide) ?_,
          h1.2.2.2.2.2.2.1 (0 * 1) rfl,
          h1.2.2.2.2.2.2.2.1 (0 * 1) 0 rfl rfl,
          h3.2.2.2.2.2.2.2.2 (by decide)⟩
  intro pc hpc
  have he : some (FVal.fin 105) = some pc := by rw [← hpc]; decide
  cases Option.some.inj he
  decide

/-- C7 is refuted as stated: the historical guard is `previous_price > 0`,
not `= 0` — a negative reference close (earliest −50, latest 75 over a
1-year window) yields 0 where the claimed formula yields −250. -/
theorem historical_negative_reference_counterexample :
    (historicalResolveOne oracleNegRef "1y" aaplStock).price_source = some "live"
    ∧ (historicalResolveOne oracleNegRef "1y" aaplStock).historical_change
        = some (FVal.fin 0)
    ∧ FVal.fin ((75 - (-50)) / (-50) * 100 : ℚ) = FVal.fin (-250)
    ∧ FVal.fin (0 : ℚ) ≠ FVal.fin (-250 : ℚ) := by
  refine ⟨by decide, by decide, ?_, by decide⟩
  have hq : ((75 : ℚ) - (-50)) / (-50) * 100 = -250 := by norm_num
  rw [hq]

/-- C7 (amended): for a live historical resolution the reference close is
the session-before-latest close for the 1-day period and the earliest
close in the window otherwise, and `historical_change` equals
(latest − reference)/reference × 100 when the reference is positive, and 0
when the reference is zero or negative — the guard is `> 0`, not `== 0`
(see `historical_negative_reference_counterexample`). -/
theorem historical_change_formula (o : String → FetchOutcome) (stock : Stock)
    (hist : Hist) (period : String)
    (hsym : stock.symbol ≠ "CASH") (ho : o stock.symbol = FetchOutcome.ok hist)
    (hlen : 2 ≤ hist.rows.length) :
    ∀ c r : ℚ, hist.lastClose = FVal.fin c →
      (if period = "1d" then hist.secondLastClose else hist.firstClose) = FVal.fin r →
      (0 < r → (historicalResolveOne o period stock).historical_change
          = some (FVal.fin ((c - r) / r * 100)))
      ∧ (r ≤ 0 → (historicalResolveOne o period stock).historical_change
          = some (FVal.fin 0))
      ∧ (historicalResolveOne o period stock).price_source = some "live" := by
  intro c r hc hr
  have hcond : ¬hist.rows.isEmpty ∧ 2 ≤ hist.rows.length := by
    refine ⟨?_, hlen⟩
    cases hrows : hist.rows with
    | nil => rw [hrows] at hlen; simp at hlen
    | cons x xs => simp [hrows]
  have hprev : (if period = "1d" then
      (if 1 < hist.rows.length then hist.secondLastClose else hist.lastOpenPrice)
      else hist.firstClose) = FVal.fin r := by
    by_cases hp : period = "1d"
    · rw [if_pos hp, if_pos (by omega)]
      rw [if_pos hp] at hr; exact hr
    · rw [if_neg hp]; rw [if_neg hp] at hr; exact hr
  unfold historicalResolveOne
  rw [if_neg hsym, ho]
  dsimp only
  rw [if_pos hcond, hprev, hc]
  refine ⟨?_, ?_, rfl⟩
  · intro hpos
    have hr0 : r ≠ 0 := ne_of_gt hpos
    have hg : FVal.gtZero (FVal.fin r) = true := by simp [FVal.gtZero, hpos]
    rw [if_pos hg]
    have harith : FVal.mul (FVal.div (FVal.sub (FVal.fin c) (FVal.fin r)) (FVal.fin r))
        (FVal.fin 100) = FVal.fin ((c - r) / r * 100) := by
      simp [FVal.sub, FVal.neg, FVal.add, FVal.div, FVal.mul, hr0, sub_eq_add_neg]
    rw [harith]
  · intro hneg
    have hg : FVal.gtZero (FVal.fin r) = false := by
      simp [FVal.gtZero, not_lt.mpr hneg]
    rw [if_neg (by simp [hg])]

/-- Witness for C7 (amended): the spec's 1-year scenario, earliest close
50 and latest close 75. -/
theorem historical_change_formula_witness :
    (historicalResolveOne oracle1y "1y" aaplStock).historical_change
      = some (FVal.fin 50)
    ∧ (historicalResolveOne oracle1y "1y" aaplStock).price_source = some "live" := by
  have h := historical_change_formula oracle1y aaplStock
    ⟨[⟨FVal.fin 50, FVal.fin 49⟩, ⟨FVal.fin 75, FVal.fin 74⟩], true⟩ "1y"
    (by decide) rfl (by decide) 75 50 (by decide) (by decide)
  refine ⟨?_, h.2.2⟩
  rw [h.1 (by norm_num)]
  have hq : ((75 : ℚ) - 50) / 50 * 100 = 50 := by norm_num
  rw [hq]

/-- C8 is refuted as stated: on a 1-point series the main resolve path
goes live, but the historical variant requires at least 2 points and falls
back to defaults — the two fallback policies differ. -/
theorem historical_single_point_defaults :
    (resolveOne oracleOnePoint aaplStock).1.price_source = some "live"
    ∧ (historicalResolveOne oracleOnePoint "1d" aaplStock).price_source
        = some "default"
    ∧ (historicalResolveOne oracleOnePoint "1d" aaplStock).historical_change
        = some (FVal.fin 0)
    ∧ (historicalResolveOne oracleOnePoint "1d" aaplStock).current_price
        = some (FVal.fin 100) := by decide

/-- C8 (amended): the historical variant falls back to the default record
(baseline price, zero change, `price_source = default`) iff the lookup
raises or returns fewer than 2 data points, and resolves live — latest
close as `current_price`, `price_source = live` — iff the lookup succeeds
with at least 2 data points; it returns exactly one record per input
record and maintains no failed-symbols list. -/
theorem historical_fallback_policy (o : String → FetchOutcome) (stock : Stock)
    (period : String) (hsym : stock.symbol ≠ "CASH") :
    (o stock.symbol = FetchOutcome.raise →
        historicalResolveOne o period stock
        = { stock with current_price := some (FVal.fin stock.price),
                       previous_price := some (FVal.fin stock.price),
                       historical_change := some (FVal.fin 0),
                       period := some period,
                       price_source := some "default" })
    ∧ (∀ hist, o stock.symbol = FetchOutcome.ok hist → hist.rows.length < 2 →
        historicalResolveOne o period stock
        = { stock with current_price := some (FVal.fin stock.price),
                       previous_price := some (FVal.fin stock.price),
                       historical_change := some (FVal.fin 0),
                       period := some period,
                       price_source := some "default" })
    ∧ (∀ hist, o stock.symbol = FetchOutcome.ok hist → 2 ≤ hist.rows.length →
        (historicalResolveOne o period stock).price_source = some "live"
        ∧ (historicalResolveOne o period stock).current_price = some hist.lastClose)
    ∧ (∀ stocks : List Stock,
        (get_historical_data o stocks period).length = stocks.length
        ∧ get_historical_data o stocks period
            = stocks.map (historicalResolveOne o period)) := by
  refine ⟨?_, ?_, ?_, ?_⟩
  · intro hr
    simp [historicalResolveOne, hsym, hr]
  · intro hist ho hlt
    have hcond : ¬(¬hist.rows.isEmpty ∧ 2 ≤ hist.rows.length) := by
      intro hcon
      exact absurd hcon.2 (by omega)
    unfold historicalResolveOne
    rw [if_neg hsym, ho]
    dsimp only
    rw [if_neg hcond]
  · intro hist ho hge
    have hcond : ¬hist.rows.isEmpty ∧ 2 ≤ hist.rows.length := by
      refine ⟨?_, hge⟩
      cases hrows : hist.rows with
      | nil => rw [hrows] at hge; simp at hge
      | cons x xs => simp [hrows]
    constructor
    · unfold historicalResolveOne
      rw [if_neg hsym, ho]
      dsimp only
      rw [if_pos hcond]
    · unfold historicalResolveOne
      rw [if_neg hsym, ho]
      dsimp only
      rw [if_pos hcond]
  · intro stocks
    exact ⟨by simp [get_historical_data], rfl⟩

/-- Witness for C8 (amended) at a concrete raising lookup. -/
theorem historical_fallback_policy_witness :
    historicalResolveOne oracleRaise "1w" aaplStock
      = { aaplStock with current_price := some (FVal.fin 100),
                         previous_price := some (FVal.fin 100),
                         historical_change := some (FVal.fin 0),
                         period := some "1w",
                         price_source := some "default" }
    ∧ (get_historical_data oracleRaise [aaplStock] "1w").length = 1 := by
  have h := historical_fallback_policy oracleRaise aaplStock "1w" (by decide)
  refine ⟨?_, (h.2.2.2 [aaplStock]).1⟩
  rw [h.1 rfl]
  decide

/-- C10: resolution never mutates its inputs.  In the heap model of both
loops — where `stock.copy()` is an allocation and each key assignment a
write to the copy's address — every pre-existing record (any address below
the allocation frontier) reads back unchanged after either call, and every
returned address is freshly allocated, so every returned record is a fresh
copy and the configured holdings survive refresh cycles unchanged. -/
theorem resolution_preserves_input_heap (o : String → FetchOutcome) (period : String)
    (h : Heap) (as : List Nat) (i : Nat) (d : Stock)
    (hi : i < h.recs.length) :
    ((fetch_stock_prices_heap o h as).1.recs.getD i d = h.recs.getD i d
      ∧ ∀ a' ∈ (fetch_stock_prices_heap o h as).2.1, h.recs.length ≤ a')
    ∧ ((get_historical_data_heap o period h as).1.recs.getD i d = h.recs.getD i d
      ∧ ∀ a' ∈ (get_historical_data_heap o period h as).2, h.recs.length ≤ a') := by
  obtain ⟨e1, he1, ha1⟩ := fetch_stock_prices_heap_extends o as h
  obtain ⟨e2, he2, ha2⟩ := get_historical_data_heap_extends o period as h
  exact ⟨⟨by rw [he1, List.getD_append _ _ _ _ hi], ha1⟩,
         ⟨by rw [he2, List.getD_append _ _ _ _ hi], ha2⟩⟩

/-- Witness for C10 at a concrete two-record heap. -/
theorem resolution_preserves_input_heap_witness :
    (fetch_stock_prices_heap oracleRaise ⟨[aaplStock, cashStock]⟩
        [0, 1]).1.recs.getD 0 default = aaplStock
    ∧ (get_historical_data_heap oracleRaise "1d" ⟨[aaplStock, cashStock]⟩
        [0, 1]).1.recs.getD 0 default = aaplStock := by
  have h := resolution_preserves_input_heap oracleRaise "1d" ⟨[aaplStock, cashStock]⟩
    [0, 1] 0 default (by decide)
  exact ⟨by rw [h.1.1]; decide, by rw [h.2.1]; decide⟩
